import Mathlib

/-!
Shallow embedding of the invoice grouping and tabular-flattening transform
in `src/server.py` (`get_grouped_invoices`), together with theorems checking
the natural-language specification against it.

Conventions of the embedding:
* Python `None` / an absent dict key is `Option.none`; JSON objects are
  structures of `Option` fields; JSON arrays are lists.
* `datetime` values are tuples `(year, month, day, hour, minute, second,
  microsecond)` compared lexicographically, exactly as CPython compares
  naive datetimes.
* `datetime.strptime(s, "%Y-%m-%d")` is modelled after CPython's
  `_strptime`: the regex `\d\d\d\d-(1[0-2]|0[1-9]|[1-9])-(3[01]|[12]\d|0[1-9]|[1-9])`
  must match a prefix, any unconverted trailing data raises `ValueError`,
  and the `datetime` constructor additionally requires `1 <= year` and the
  day to fit the (Gregorian, proleptic) month length.
* The uncaught `IndexError` raised by `inv.get("items", [{}])[0]` on a
  present-but-empty `items` list is modelled by `Option.none` results of
  the stateful steps (`ClassifyResult.indexError` at the classify level).
-/

/-- A raw item inside an invoice's `items` array; only `dueDate` is read. -/
structure RawItem where
  dueDate : Option String
deriving DecidableEq

/-- The client sub-object of a raw invoice, as read by the code. -/
structure RawClient where
  id : Option String
  name : Option String
  emails : Option (List String)
  phone : Option String
deriving DecidableEq

/-- A raw invoice record, restricted to the keys `get_grouped_invoices` reads.
The localized download-link mapping `url` is an association list. -/
structure RawInvoice where
  client : Option RawClient
  dueDate : Option String
  items : Option (List RawItem)
  id : Option String
  amount : Option Int
  description : Option String
  url : Option (List (String × String))
  documentDate : Option String
deriving DecidableEq

/-- The default raw invoice: every key absent. -/
def RawInvoice.empty : RawInvoice :=
  ⟨none, none, none, none, none, none, none, none⟩

/-- A naive CPython `datetime`, compared lexicographically. -/
structure PyDateTime where
  year : Nat
  month : Nat
  day : Nat
  hour : Nat
  minute : Nat
  second : Nat
  microsecond : Nat
deriving DecidableEq

/-- The `datetime` produced by `strptime` with format `%Y-%m-%d`:
midnight of the given calendar date. -/
def mkDate (y m d : Nat) : PyDateTime := ⟨y, m, d, 0, 0, 0, 0⟩

/-- CPython comparison of naive datetimes: lexicographic on the field tuple. -/
def pyLt (a b : PyDateTime) : Bool :=
  if a.year ≠ b.year then decide (a.year < b.year)
  else if a.month ≠ b.month then decide (a.month < b.month)
  else if a.day ≠ b.day then decide (a.day < b.day)
  else if a.hour ≠ b.hour then decide (a.hour < b.hour)
  else if a.minute ≠ b.minute then decide (a.minute < b.minute)
  else if a.second ≠ b.second then decide (a.second < b.second)
  else decide (a.microsecond < b.microsecond)

/-- Numeric value of a decimal digit character. -/
def digitVal (c : Char) : Nat := c.toNat - 48

/-- Gregorian leap-year rule used by CPython's `datetime`. -/
def isLeap (y : Nat) : Bool := (y % 4 = 0 ∧ y % 100 ≠ 0) ∨ y % 400 = 0

/-- Days in a month, as enforced by the `datetime` constructor. -/
def daysInMonth (y m : Nat) : Nat :=
  if m = 2 then (if isLeap y then 29 else 28)
  else if m = 4 ∨ m = 6 ∨ m = 9 ∨ m = 11 then 30
  else 31

/-- The `%m` directive of `_strptime`: regex `(1[0-2]|0[1-9]|[1-9])`,
alternatives tried in that order; returns the month and remaining input. -/
def parseMonth : List Char → Option (Nat × List Char)
  | c1 :: c2 :: rest =>
    if c1 = '1' ∧ (c2 = '0' ∨ c2 = '1' ∨ c2 = '2') then some (10 + digitVal c2, rest)
    else if c1 = '0' ∧ c2.isDigit ∧ c2 ≠ '0' then some (digitVal c2, rest)
    else if c1.isDigit ∧ c1 ≠ '0' then some (digitVal c1, c2 :: rest)
    else none
  | [c1] => if c1.isDigit ∧ c1 ≠ '0' then some (digitVal c1, []) else none
  | [] => none

/-- The `%d` directive of `_strptime`: regex `(3[01]|[12]\d|0[1-9]|[1-9])`,
alternatives tried in that order; returns the day and remaining input. -/
def parseDay : List Char → Option (Nat × List Char)
  | c1 :: c2 :: rest =>
    if c1 = '3' ∧ (c2 = '0' ∨ c2 = '1') then some (30 + digitVal c2, rest)
    else if (c1 = '1' ∨ c1 = '2') ∧ c2.isDigit then
      some (10 * digitVal c1 + digitVal c2, rest)
    else if c1 = '0' ∧ c2.isDigit ∧ c2 ≠ '0' then some (digitVal c2, rest)
    else if c1.isDigit ∧ c1 ≠ '0' then some (digitVal c1, c2 :: rest)
    else none
  | [c1] => if c1.isDigit ∧ c1 ≠ '0' then some (digitVal c1, []) else none
  | [] => none

/-- `datetime.strptime(s, "%Y-%m-%d")`, returning `some (y, m, d)` on
success and `none` for the `ValueError` that the code catches: the year is
exactly four digits, month and day follow `_strptime`'s regex with literal
dashes between, no unconverted data may remain, and the resulting date must
be a valid proleptic-Gregorian date with `1 ≤ y` (`datetime.MINYEAR`). -/
def parseYMD (s : String) : Option (Nat × Nat × Nat) :=
  match s.toList with
  | y1 :: y2 :: y3 :: y4 :: '-' :: rest =>
    if y1.isDigit ∧ y2.isDigit ∧ y3.isDigit ∧ y4.isDigit then
      match parseMonth rest with
      | some (m, '-' :: rest2) =>
        match parseDay rest2 with
        | some (d, []) =>
          let y := 1000 * digitVal y1 + 100 * digitVal y2 + 10 * digitVal y3 + digitVal y4
          if 1 ≤ y ∧ d ≤ daysInMonth y m then some (y, m, d) else none
        | _ => none
      | _ => none
    else none
  | _ => none

/-- A cell value held in a row before CSV serialization: a Python string,
int, or `None`. -/
inductive Cell
  | str (s : String)
  | int (n : Int)
  | null
deriving DecidableEq

/-- The `invoice_info` record built for a classified invoice. -/
structure InvoiceInfo where
  status : String
  id : Option String
  amount : Option Int
  description : Option String
  download_link : Option String
  create_date : Option String
  due_date : String
deriving DecidableEq

/-- One value of the `clients` dict: client metadata plus the ordered
invoice list. -/
structure ClientGroup where
  client_name : String
  client_email : String
  client_phone : String
  invoices : List InvoiceInfo
deriving DecidableEq

/-- The `clients` dict: a Python 3.7+ dict is insertion-ordered with unique
keys, modelled as an association list (new keys appended at the end). -/
abbrev ClientsDict := List (String × ClientGroup)

/-- `inv.get("client", {})`. -/
def clientOf (inv : RawInvoice) : RawClient :=
  inv.client.getD ⟨none, none, none, none⟩

/-- `client.get("id", "unknown")`. -/
def clientIdOf (inv : RawInvoice) : String := (clientOf inv).id.getD "unknown"

/-- `client.get("name", "Unknown")`. -/
def clientNameOf (inv : RawInvoice) : String := (clientOf inv).name.getD "Unknown"

/-- `", ".join(client.get("emails", []))`. -/
def clientEmailOf (inv : RawInvoice) : String :=
  String.intercalate ", " ((clientOf inv).emails.getD [])

/-- `client.get("phone", "")`. -/
def clientPhoneOf (inv : RawInvoice) : String := (clientOf inv).phone.getD ""

/-- `inv.get("dueDate") or inv.get("items", [{}])[0].get("dueDate")`:
the value of the whole `or` expression. Python's `or` yields the left value
when it is truthy (a non-empty string) and otherwise evaluates the right
side, where `[{}][0].get("dueDate")` is `None` when the `items` key is
absent, `items[0].get("dueDate")` when `items` is non-empty, and raises an
uncaught `IndexError` (modelled by `Except.error ()`) when `items` is
present but empty. -/
def resolveDueDate (inv : RawInvoice) : Except Unit (Option String) :=
  match inv.dueDate with
  | some s =>
    if s ≠ "" then Except.ok (some s)
    else
      match inv.items with
      | none => Except.ok none
      | some [] => Except.error ()
      | some (it :: _) => Except.ok it.dueDate
  | none =>
    match inv.items with
    | none => Except.ok none
    | some [] => Except.error ()
    | some (it :: _) => Except.ok it.dueDate

/-- Outcome of the loop body up to building `invoice_info`. -/
inductive ClassifyResult
  | ok (info : InvoiceInfo)
  | dropped
  | indexError
deriving DecidableEq

/-- The per-invoice classification in the loop body: resolve the due-date
string, `continue` (drop) when it is falsy, parse its first 10 characters
with `strptime` and drop on `ValueError`, compare to `now` with strict `<`
for `past_due`, and build `invoice_info`. -/
def classify (inv : RawInvoice) (now : PyDateTime) : ClassifyResult :=
  match resolveDueDate inv with
  | Except.error _ => ClassifyResult.indexError
  | Except.ok none => ClassifyResult.dropped
  | Except.ok (some s) =>
    if s = "" then ClassifyResult.dropped
    else
      match parseYMD (s.take 10) with
      | none => ClassifyResult.dropped
      | some (y, m, d) =>
        ClassifyResult.ok
          { status := if pyLt (mkDate y m d) now then "past_due" else "to_be_paid"
            id := inv.id
            amount := inv.amount
            description := inv.description
            download_link := (inv.url.getD []).lookup "he"
            create_date := inv.documentDate
            due_date := s }

/-- The resolved due-date string when it is truthy, `none` otherwise. -/
def resolvedDueStr (inv : RawInvoice) : Option String :=
  match resolveDueDate inv with
  | Except.ok (some s) => if s = "" then none else some s
  | _ => none

/-- `client_id in clients`. -/
def dictContains (d : ClientsDict) (k : String) : Bool := d.any (fun e => e.1 = k)

/-- `clients[k]` (first — unique — matching key). -/
def dictGet (d : ClientsDict) (k : String) : Option ClientGroup :=
  match d with
  | [] => none
  | (k', g) :: rest => if k' = k then some g else dictGet rest k

/-- `clients[client_id]["invoices"].append(invoice_info)`. -/
def appendInvoice (d : ClientsDict) (cid : String) (info : InvoiceInfo) : ClientsDict :=
  match d with
  | [] => []
  | (k, g) :: rest =>
    if k = cid then (k, { g with invoices := g.invoices ++ [info] }) :: rest
    else (k, g) :: appendInvoice rest cid info

/-- The `ClientGroup` created on first encounter of a client id, from that
invoice's client sub-object. -/
def mkGroup (inv : RawInvoice) : ClientGroup :=
  { client_name := clientNameOf inv
    client_email := clientEmailOf inv
    client_phone := clientPhoneOf inv
    invoices := [] }

/-- One iteration of the aggregation loop over `clients`: skip on drop,
propagate the uncaught `IndexError` as `none`, otherwise create the group
on first encounter and append `invoice_info`. -/
def aggStep (now : PyDateTime) (clients : ClientsDict) (inv : RawInvoice) :
    Option ClientsDict :=
  match classify inv now with
  | ClassifyResult.indexError => none
  | ClassifyResult.dropped => some clients
  | ClassifyResult.ok info =>
    let cid := clientIdOf inv
    let clients' :=
      if dictContains clients cid then clients else clients ++ [(cid, mkGroup inv)]
    some (appendInvoice clients' cid info)

/-- The `for inv in invoices` aggregation loop, threading the `clients`
dict; `none` models the uncaught `IndexError` aborting the whole request. -/
def processInvoices (invs : List RawInvoice) (now : PyDateTime)
    (clients : ClientsDict) : Option ClientsDict :=
  match invs with
  | [] => some clients
  | inv :: rest =>
    match aggStep now clients inv with
    | none => none
    | some c => processInvoices rest now c

/-- `max(len(c["invoices"]) for c in clients.values()) if clients else 0`. -/
def maxInvoices (clients : ClientsDict) : Nat :=
  clients.foldl (fun acc e => Nat.max acc e.2.invoices.length) 0

/-- The 4 fixed header columns. -/
def baseHeaders : List String :=
  ["client_id", "client_name", "client_email", "client_phone"]

/-- The 7 header columns generated for invoice slot `i`. -/
def invoiceSlotHeaders (i : Nat) : List String :=
  ["invoice" ++ toString i ++ "_status",
   "invoice" ++ toString i ++ "_id",
   "invoice" ++ toString i ++ "_amount",
   "invoice" ++ toString i ++ "_description",
   "invoice" ++ toString i ++ "_download_link",
   "invoice" ++ toString i ++ "_create_date",
   "invoice" ++ toString i ++ "_due_date"]

/-- `headers = base_headers + invoice_headers` for slots `1..max_invoices`. -/
def mkHeaders (maxInv : Nat) : List String :=
  baseHeaders ++ ((List.range maxInv).map (fun j => invoiceSlotHeaders (j + 1))).flatten

/-- The 7 cells contributed by one classified invoice, in emission order. -/
def invoiceCells (info : InvoiceInfo) : List Cell :=
  [Cell.str info.status,
   (info.id.map Cell.str).getD Cell.null,
   (info.amount.map Cell.int).getD Cell.null,
   (info.description.map Cell.str).getD Cell.null,
   (info.download_link.map Cell.str).getD Cell.null,
   (info.create_date.map Cell.str).getD Cell.null,
   Cell.str info.due_date]

/-- One data row: the 4 client fields, each invoice's 7 cells in stored
order, then right-padding with empty strings up to the header length. -/
def rowFor (numHeaders : Nat) (e : String × ClientGroup) : List Cell :=
  let base := [Cell.str e.1, Cell.str e.2.client_name,
               Cell.str e.2.client_email, Cell.str e.2.client_phone]
  let row := base ++ (e.2.invoices.map invoiceCells).flatten
  row ++ List.replicate (numHeaders - row.length) (Cell.str "")

/-- The CSV-construction phase: header names and one row per client, in
dict (insertion) order. -/
def flattenGroups (clients : ClientsDict) : List String × List (List Cell) :=
  let headers := mkHeaders (maxInvoices clients)
  (headers, clients.map (rowFor headers.length))

/-- `str(cell)` as `csv.writer` renders it: `None` becomes the empty
string, ints their decimal form. -/
def cellText : Cell → String
  | Cell.str s => s
  | Cell.int n => toString n
  | Cell.null => ""

/-- QUOTE_MINIMAL: quote a field iff it holds the delimiter, the quote
char, or a line break, doubling embedded quotes. -/
def csvQuote (s : String) : String :=
  if s.toList.any (fun c => c = ',' ∨ c = '"' ∨ c = '\n' ∨ c = '\r') then
    "\"" ++ s.replace "\"" "\"\"" ++ "\""
  else s

/-- One CSV line with `csv.writer`'s default `\r\n` terminator. -/
def csvLine (fields : List String) : String :=
  String.intercalate "," (fields.map csvQuote) ++ "\r\n"

/-- The full CSV text written by the endpoint for a header/rows pair. -/
def csvText (t : List String × List (List Cell)) : String :=
  csvLine t.1 ++ String.join (t.2.map (fun r => csvLine (r.map cellText)))

/-- The whole core transform of the endpoint, from the raw invoice list and
`now` to the header/rows table; `none` models the uncaught `IndexError`. -/
def getGroupedInvoices (invs : List RawInvoice) (now : PyDateTime) :
    Option (List String × List (List Cell)) :=
  (processInvoices invs now []).map flattenGroups

/-! ### Helper lemmas about the embedded operations -/

lemma pyLt_irrefl (a : PyDateTime) : pyLt a a = false := by
  simp [pyLt]

lemma dictGet_of_contains {d : ClientsDict} {k : String}
    (h : dictContains d k = true) : ∃ g, dictGet d k = some g := by
  induction d with
  | nil => simp [dictContains] at h
  | cons e rest ih =>
    obtain ⟨k', g⟩ := e
    by_cases he : k' = k
    · exact ⟨g, by simp [dictGet, he]⟩
    · have h' : dictContains rest k = true := by
        simpa [dictContains, he] using h
      obtain ⟨g', hg'⟩ := ih h'
      exact ⟨g', by simp [dictGet, he, hg']⟩

lemma contains_of_dictGet {d : ClientsDict} {k : String} {g : ClientGroup}
    (h : dictGet d k = some g) : dictContains d k = true := by
  induction d with
  | nil => simp [dictGet] at h
  | cons e rest ih =>
    obtain ⟨k', g'⟩ := e
    by_cases he : k' = k
    · simp [dictContains, he]
    · have h' : dictGet rest k = some g := by simpa [dictGet, he] using h
      simpa [dictContains, he] using ih h'

lemma dictContains_iff_mem_keys {d : ClientsDict} {k : String} :
    dictContains d k = true ↔ k ∈ d.map Prod.fst := by
  simp only [dictContains, List.any_eq_true, List.mem_map, decide_eq_true_eq]

lemma dictGet_append_right {d d' : ClientsDict} {k : String}
    (h : dictContains d k = false) : dictGet (d ++ d') k = dictGet d' k := by
  induction d with
  | nil => simp
  | cons e rest ih =>
    obtain ⟨k', g⟩ := e
    by_cases he : k' = k
    · simp [dictContains, he] at h
    · have h' : dictContains rest k = false := by
        simpa [dictContains, he] using h
      simpa [dictGet, he] using ih h'

lemma dictGet_append_left {d d' : ClientsDict} {k : String} {g : ClientGroup}
    (h : dictGet d k = some g) : dictGet (d ++ d') k = some g := by
  induction d with
  | nil => simp [dictGet] at h
  | cons e rest ih =>
    obtain ⟨k', g'⟩ := e
    by_cases he : k' = k
    · simp [dictGet, he] at h ⊢; exact h
    · have h' : dictGet rest k = some g := by simpa [dictGet, he] using h
      simpa [dictGet, he] using ih h'

lemma dictGet_appendInvoice_self {d : ClientsDict} {k : String} {g : ClientGroup}
    {info : InvoiceInfo} (h : dictGet d k = some g) :
    dictGet (appendInvoice d k info) k =
      some { g with invoices := g.invoices ++ [info] } := by
  induction d with
  | nil => simp [dictGet] at h
  | cons e rest ih =>
    obtain ⟨k', g'⟩ := e
    by_cases he : k' = k
    · have : g' = g := by simpa [dictGet, he] using h
      subst this
      simp [appendInvoice, dictGet, he]
    · have h' : dictGet rest k = some g := by simpa [dictGet, he] using h
      simpa [appendInvoice, dictGet, he] using ih h'

lemma dictGet_appendInvoice_ne {d : ClientsDict} {cid k : String}
    {info : InvoiceInfo} (h : k ≠ cid) :
    dictGet (appendInvoice d cid info) k = dictGet d k := by
  induction d with
  | nil => simp [appendInvoice]
  | cons e rest ih =>
    obtain ⟨k', g'⟩ := e
    simp only [appendInvoice]
    by_cases hc : k' = cid
    · rw [if_pos hc]
      have hne : k' ≠ k := by rw [hc]; exact Ne.symm h
      simp [dictGet, hne]
    · rw [if_neg hc]
      by_cases hk : k' = k
      · simp [dictGet, hk]
      · simpa [dictGet, hk] using ih

lemma appendInvoice_keys (d : ClientsDict) (cid : String) (info : InvoiceInfo) :
    (appendInvoice d cid info).map Prod.fst = d.map Prod.fst := by
  induction d with
  | nil => rfl
  | cons e rest ih =>
    obtain ⟨k', g'⟩ := e
    by_cases hc : k' = cid
    · simp [appendInvoice, hc]
    · simp [appendInvoice, hc, ih]

lemma processInvoices_append (l1 l2 : List RawInvoice) (now : PyDateTime)
    (c : ClientsDict) :
    processInvoices (l1 ++ l2) now c =
      match processInvoices l1 now c with
      | none => none
      | some c' => processInvoices l2 now c' := by
  induction l1 generalizing c with
  | nil => simp [processInvoices]
  | cons inv rest ih =>
    simp only [List.cons_append, processInvoices]
    cases aggStep now c inv with
    | none => rfl
    | some c' => exact ih c'

lemma aggStep_dropped {inv : RawInvoice} {now : PyDateTime}
    (h : classify inv now = ClassifyResult.dropped) (c : ClientsDict) :
    aggStep now c inv = some c := by
  simp [aggStep, h]

lemma skip_of_dropped {inv : RawInvoice} {now : PyDateTime}
    (h : classify inv now = ClassifyResult.dropped) :
    ∀ l1 l2 c, processInvoices (l1 ++ inv :: l2) now c =
      processInvoices (l1 ++ l2) now c := by
  intro l1 l2 c
  rw [processInvoices_append, processInvoices_append]
  cases processInvoices l1 now c with
  | none => rfl
  | some c' => simp [processInvoices, aggStep_dropped h]

lemma aggStep_classified {inv : RawInvoice} {now : PyDateTime} {info : InvoiceInfo}
    (h : classify inv now = ClassifyResult.ok info) (clients : ClientsDict) :
    ∃ d g, aggStep now clients inv = some d ∧
      dictGet d (clientIdOf inv) = some g ∧
      g.invoices.getLast? = some info ∧ info ∈ g.invoices := by
  by_cases hc : dictContains clients (clientIdOf inv)
  · obtain ⟨g0, hg0⟩ := dictGet_of_contains hc
    refine ⟨appendInvoice clients (clientIdOf inv) info,
      { g0 with invoices := g0.invoices ++ [info] }, ?_, ?_, ?_, ?_⟩
    · simp [aggStep, h, hc]
    · exact dictGet_appendInvoice_self hg0
    · simp
    · simp
  · have hc' : dictContains clients (clientIdOf inv) = false := by
      simpa using hc
    have hget : dictGet (clients ++ [(clientIdOf inv, mkGroup inv)])
        (clientIdOf inv) = some (mkGroup inv) := by
      rw [dictGet_append_right hc']; simp [dictGet]
    refine ⟨appendInvoice (clients ++ [(clientIdOf inv, mkGroup inv)])
      (clientIdOf inv) info,
      { mkGroup inv with invoices := (mkGroup inv).invoices ++ [info] }, ?_, ?_, ?_, ?_⟩
    · simp [aggStep, h, hc']
    · exact dictGet_appendInvoice_self hget
    · simp
    · simp

lemma aggStep_keys_nodup {now : PyDateTime} {clients : ClientsDict}
    {inv : RawInvoice} {d : ClientsDict}
    (hn : (clients.map Prod.fst).Nodup) (h : aggStep now clients inv = some d) :
    (d.map Prod.fst).Nodup := by
  unfold aggStep at h
  cases hcl : classify inv now with
  | indexError => rw [hcl] at h; simp at h
  | dropped => rw [hcl] at h; simp at h; subst h; exact hn
  | ok info =>
    rw [hcl] at h
    simp only [Option.some.injEq] at h
    subst h
    by_cases hc : dictContains clients (clientIdOf inv)
    · rw [if_pos hc, appendInvoice_keys]; exact hn
    · have hc' : dictContains clients (clientIdOf inv) = false := by simpa using hc
      rw [if_neg hc, appendInvoice_keys]
      have hmem : clientIdOf inv ∉ clients.map Prod.fst := by
        intro hmem
        exact hc (dictContains_iff_mem_keys.mpr hmem)
      simp only [List.map_append, List.map_cons, List.map_nil]
      rw [List.nodup_append]
      refine ⟨hn, by simp, ?_⟩
      intro a ha hb
      simp only [List.mem_cons, List.not_mem_nil, or_false] at hb
      subst hb
      exact hmem ha

lemma processInvoices_keys_nodup {invs : List RawInvoice} {now : PyDateTime}
    {clients d : ClientsDict}
    (hn : (clients.map Prod.fst).Nodup) (h : processInvoices invs now clients = some d) :
    (d.map Prod.fst).Nodup := by
  induction invs generalizing clients with
  | nil =>
    simp only [processInvoices, Option.some.injEq] at h
    subst h; exact hn
  | cons inv rest ih =>
    simp only [processInvoices] at h
    cases hstep : aggStep now clients inv with
    | none => rw [hstep] at h; simp at h
    | some c' =>
      rw [hstep] at h
      exact ih (aggStep_keys_nodup hn hstep) h

lemma le_foldl_max (l : ClientsDict) (a : Nat) :
    a ≤ l.foldl (fun x e => Nat.max x e.2.invoices.length) a := by
  induction l generalizing a with
  | nil => exact Nat.le_refl a
  | cons e rest ih =>
    exact Nat.le_trans (Nat.le_max_left a e.2.invoices.length) (ih _)

lemma length_le_maxInvoices {g : ClientsDict} {e : String × ClientGroup}
    (h : e ∈ g) : e.2.invoices.length ≤ maxInvoices g := by
  unfold maxInvoices
  generalize 0 = a
  induction g generalizing a with
  | nil => simp at h
  | cons e' rest ih =>
    rcases List.mem_cons.mp h with he | he
    · subst he
      exact Nat.le_trans (Nat.le_max_right a e.2.invoices.length) (le_foldl_max rest _)
    · exact ih he _

lemma flatten_invoiceCells_length (l : List InvoiceInfo) :
    ((l.map invoiceCells).flatten).length = 7 * l.length := by
  induction l with
  | nil => rfl
  | cons info rest ih =>
    simp only [List.map_cons, List.flatten_cons, List.length_append, ih,
      List.length_cons]
    have : (invoiceCells info).length = 7 := rfl
    omega

lemma slotHeaders_flatten_length (n : Nat) :
    (((List.range n).map (fun j => invoiceSlotHeaders (j + 1))).flatten).length
      = 7 * n := by
  induction n with
  | zero => rfl
  | succ k ih =>
    rw [List.range_succ]
    simp only [List.map_append, List.map_cons, List.map_nil, List.flatten_append,
      List.length_append, ih]
    have : (invoiceSlotHeaders (k + 1)).length = 7 := rfl
    simp only [List.flatten_cons, List.flatten_nil, List.append_nil, this]
    omega

lemma mkHeaders_length (n : Nat) : (mkHeaders n).length = 4 + 7 * n := by
  unfold mkHeaders
  rw [List.length_append, slotHeaders_flatten_length]
  simp [baseHeaders]

lemma resolvedDueStr_some {inv : RawInvoice} {s : String}
    (hs : resolvedDueStr inv = some s) :
    resolveDueDate inv = Except.ok (some s) ∧ s ≠ "" := by
  unfold resolvedDueStr at hs
  cases hr : resolveDueDate inv with
  | error e => rw [hr] at hs; exact absurd hs (by simp)
  | ok o =>
    cases o with
    | none => rw [hr] at hs; exact absurd hs (by simp)
    | some t =>
      rw [hr] at hs
      have hs' : (if t = "" then none else some t) = some s := hs
      by_cases ht : t = ""
      · rw [if_pos ht] at hs'; exact absurd hs' (by simp)
      · rw [if_neg ht] at hs'
        obtain rfl := Option.some.inj hs'
        exact ⟨rfl, ht⟩

/-! ### Claim theorems -/

/-- C1: the claim says every invoice with no discoverable due date — no
top-level `dueDate` and no items, an empty items list, or a first item
without `dueDate` — is silently dropped with no error raised. The code
violates this in the empty-items case: `inv.get("items", [{}])[0]`
evaluates `items[0]` on the present-but-empty list and raises an uncaught
`IndexError`, aborting the whole request. This theorem evaluates the code
at that failing input. -/
theorem c1_empty_items_index_error :
    classify { RawInvoice.empty with
        client := some ⟨some "c1", none, none, none⟩, items := some [] }
      ⟨2025, 1, 1, 0, 0, 0, 0⟩ = ClassifyResult.indexError ∧
    getGroupedInvoices
      [{ RawInvoice.empty with
          client := some ⟨some "c1", none, none, none⟩, items := some [] }]
      ⟨2025, 1, 1, 0, 0, 0, 0⟩ = none := by
  exact ⟨rfl, rfl⟩

/-- C2: for a fixed `now`, an invoice whose resolved due-date string parses
to an instant strictly before `now` is classified `past_due`, an equal or
later instant gives `to_be_paid`, and exact equality (to the microsecond)
gives `to_be_paid` (strict less-than for `past_due`). -/
theorem c2_status_boundary (inv : RawInvoice) (now : PyDateTime) (s : String)
    (y m d : Nat) (hs : resolvedDueStr inv = some s)
    (hp : parseYMD (s.take 10) = some (y, m, d)) :
    ∃ info, classify inv now = ClassifyResult.ok info ∧
      info.status = (if pyLt (mkDate y m d) now then "past_due" else "to_be_paid") ∧
      (pyLt (mkDate y m d) now = true → info.status = "past_due") ∧
      (pyLt (mkDate y m d) now = false → info.status = "to_be_paid") ∧
      (mkDate y m d = now → info.status = "to_be_paid") := by
  obtain ⟨hr, hne⟩ := resolvedDueStr_some hs
  have hcl : classify inv now = ClassifyResult.ok
      { status := if pyLt (mkDate y m d) now then "past_due" else "to_be_paid"
        id := inv.id
        amount := inv.amount
        description := inv.description
        download_link := (inv.url.getD []).lookup "he"
        create_date := inv.documentDate
        due_date := s } := by
    simp [classify, hr, hne, hp]
  refine ⟨_, hcl, rfl, ?_, ?_, ?_⟩
  · intro hlt; simp [hlt]
  · intro hlt; simp [hlt]
  · intro he; simp [he, pyLt_irrefl]

/-- C3: when the first 10 characters of the resolved due-date string do not
parse as a `strptime` `%Y-%m-%d` date the invoice is dropped entirely
(removing it from the input changes nothing); when they do parse, the
invoice is retained and the full original string is stored as `due_date`. -/
theorem c3_parse_gate (inv : RawInvoice) (now : PyDateTime) (s : String)
    (hs : resolvedDueStr inv = some s) :
    (parseYMD (s.take 10) = none →
      classify inv now = ClassifyResult.dropped ∧
      ∀ l1 l2 c, processInvoices (l1 ++ inv :: l2) now c =
        processInvoices (l1 ++ l2) now c) ∧
    (∀ y m d, parseYMD (s.take 10) = some (y, m, d) →
      ∃ info, classify inv now = ClassifyResult.ok info ∧ info.due_date = s ∧
        ∀ clients, ∃ d' g, aggStep now clients inv = some d' ∧
          dictGet d' (clientIdOf inv) = some g ∧
          g.invoices.getLast? = some info ∧ info ∈ g.invoices) := by
  obtain ⟨hr, hne⟩ := resolvedDueStr_some hs
  constructor
  · intro hp
    have hcl : classify inv now = ClassifyResult.dropped := by
      simp [classify, hr, hne, hp]
    exact ⟨hcl, skip_of_dropped hcl⟩
  · intro y m d hp
    have hcl : classify inv now = ClassifyResult.ok
        { status := if pyLt (mkDate y m d) now then "past_due" else "to_be_paid"
          id := inv.id
          amount := inv.amount
          description := inv.description
          download_link := (inv.url.getD []).lookup "he"
          create_date := inv.documentDate
          due_date := s } := by
      simp [classify, hr, hne, hp]
    exact ⟨_, hcl, rfl, fun clients => aggStep_classified hcl clients⟩

/-- C10: due-date resolution falls through on falsy values, not on absence:
a present-but-empty top-level `dueDate` is skipped and the first item's
`dueDate` is used instead; an absent or empty-string item `dueDate` then
leaves the invoice unresolved and it is dropped. -/
theorem c10_falsy_fallthrough (inv : RawInvoice) (now : PyDateTime)
    (it : RawItem) (rest : List RawItem)
    (hdue : inv.dueDate = some "") (hitems : inv.items = some (it :: rest)) :
    resolveDueDate inv = Except.ok it.dueDate ∧
    ((it.dueDate = none ∨ it.dueDate = some "") →
      classify inv now = ClassifyResult.dropped) := by
  have hres : resolveDueDate inv = Except.ok it.dueDate := by
    simp [resolveDueDate, hdue, hitems]
  refine ⟨hres, ?_⟩
  rintro (hd | hd)
  · simp [classify, hres, hd]
  · simp [classify, hres, hd]

/-- C4: every emitted data row has length exactly `4 + 7 * max_invoices`
(`max_invoices` taken over the full group set at flatten time) and is the
4 client fields, then each invoice's 7 fields in stored order, then
right-padding with empty-string cells up to the header length. -/
theorem c4_row_shape (g : ClientsDict) (row : List Cell)
    (h : row ∈ (flattenGroups g).2) :
    row.length = 4 + 7 * maxInvoices g ∧
    ∃ e, e ∈ g ∧
      row = [Cell.str e.1, Cell.str e.2.client_name, Cell.str e.2.client_email,
             Cell.str e.2.client_phone] ++ (e.2.invoices.map invoiceCells).flatten ++
            List.replicate ((4 + 7 * maxInvoices g) - (4 + 7 * e.2.invoices.length))
              (Cell.str "") := by
  simp only [flattenGroups, List.mem_map] at h
  obtain ⟨e, he, hrow⟩ := h
  have hlen7 : ((e.2.invoices.map invoiceCells).flatten).length
      = 7 * e.2.invoices.length := flatten_invoiceCells_length _
  have hle : e.2.invoices.length ≤ maxInvoices g := length_le_maxInvoices he
  subst hrow
  constructor
  · simp only [rowFor, List.length_append, List.length_replicate, hlen7,
      mkHeaders_length, List.length_cons, List.length_nil]
    omega
  · refine ⟨e, he, ?_⟩
    have hcount : (mkHeaders (maxInvoices g)).length -
        ([Cell.str e.1, Cell.str e.2.client_name, Cell.str e.2.client_email,
          Cell.str e.2.client_phone] ++
            (e.2.invoices.map invoiceCells).flatten).length =
        (4 + 7 * maxInvoices g) - (4 + 7 * e.2.invoices.length) := by
      simp only [mkHeaders_length, List.length_append, hlen7, List.length_cons,
        List.length_nil]
    simp only [rowFor]
    rw [hcount]

/-- C5: the header row is the 4 fixed client columns followed, for each
slot `i` from 1 to `max_invoices`, by the 7 slot-indexed columns in the
fixed field order; with zero groups the output is a header-only table with
exactly the 4 fixed columns and no data rows. -/
theorem c5_header_layout (g : ClientsDict) :
    (flattenGroups g).1 =
      ["client_id", "client_name", "client_email", "client_phone"] ++
      ((List.range (maxInvoices g)).map (fun j =>
        ["invoice" ++ toString (j + 1) ++ "_status",
         "invoice" ++ toString (j + 1) ++ "_id",
         "invoice" ++ toString (j + 1) ++ "_amount",
         "invoice" ++ toString (j + 1) ++ "_description",
         "invoice" ++ toString (j + 1) ++ "_download_link",
         "invoice" ++ toString (j + 1) ++ "_create_date",
         "invoice" ++ toString (j + 1) ++ "_due_date"])).flatten ∧
    flattenGroups [] =
      (["client_id", "client_name", "client_email", "client_phone"], []) := by
  constructor
  · simp [flattenGroups, mkHeaders, baseHeaders, invoiceSlotHeaders]
  · rfl

/-- C6: a missing client sub-object or missing client id keys the invoice
under the literal string "unknown"; every classified such invoice is
appended to that one group, and the aggregation dict never holds two groups
with the same key, so all of them collapse into a single shared group. -/
theorem c6_unknown_group (inv : RawInvoice)
    (h : inv.client = none ∨ ∃ c, inv.client = some c ∧ c.id = none) :
    clientIdOf inv = "unknown" ∧
    (∀ now info clients, classify inv now = ClassifyResult.ok info →
      ∃ d g, aggStep now clients inv = some d ∧ dictGet d "unknown" = some g ∧
        g.invoices.getLast? = some info ∧ info ∈ g.invoices) ∧
    (∀ invs now d, processInvoices invs now [] = some d →
      (d.map Prod.fst).Nodup) := by
  have hid : clientIdOf inv = "unknown" := by
    rcases h with h | ⟨c, hc, hcid⟩
    · simp [clientIdOf, clientOf, h]
    · simp [clientIdOf, clientOf, hc, hcid]
  refine ⟨hid, ?_, ?_⟩
  · intro now info clients hcl
    obtain ⟨d, gg, hstep, hget, hlast, hmem⟩ := aggStep_classified hcl clients
    rw [hid] at hget
    exact ⟨d, gg, hstep, hget, hlast, hmem⟩
  · intro invs now d hproc
    exact processInvoices_keys_nodup (by simp) hproc

/-- C7: a client group's metadata (name, email, phone) is captured only
when the group is created from the first classified invoice of that client;
any later processed invoice — even one carrying different client sub-object
values — leaves the stored metadata unchanged and only appends to the
invoice sequence. -/
theorem c7_metadata_frozen (now : PyDateTime) (clients : ClientsDict)
    (inv : RawInvoice) (cid : String) (g : ClientGroup) (d : ClientsDict)
    (hg : dictGet clients cid = some g)
    (hstep : aggStep now clients inv = some d) :
    ∃ g', dictGet d cid = some g' ∧
      g'.client_name = g.client_name ∧
      g'.client_email = g.client_email ∧
      g'.client_phone = g.client_phone ∧
      (∀ info, classify inv now = ClassifyResult.ok info → clientIdOf inv = cid →
        g'.invoices = g.invoices ++ [info]) ∧
      (clientIdOf inv ≠ cid → g'.invoices = g.invoices) := by
  cases hcl : classify inv now with
  | indexError => simp [aggStep, hcl] at hstep
  | dropped =>
    simp only [aggStep, hcl, Option.some.injEq] at hstep
    subst hstep
    refine ⟨g, hg, rfl, rfl, rfl, ?_, fun _ => rfl⟩
    intro info hinfo
    exact absurd hinfo (by simp)
  | ok info0 =>
    simp only [aggStep, hcl, Option.some.injEq] at hstep
    by_cases hcid : clientIdOf inv = cid
    · have hcont : dictContains clients (clientIdOf inv) = true := by
        rw [hcid]; exact contains_of_dictGet hg
      rw [if_pos hcont] at hstep
      subst hstep
      rw [hcid] at *
      refine ⟨{ g with invoices := g.invoices ++ [info0] },
        dictGet_appendInvoice_self hg, rfl, rfl, rfl, ?_, ?_⟩
      · intro info hinfo _
        obtain rfl : info0 = info := ClassifyResult.ok.inj hinfo
        rfl
      · intro hne; exact absurd rfl hne
    · have hget : dictGet d cid = some g := by
        subst hstep
        rw [dictGet_appendInvoice_ne (fun hkk => hcid hkk.symm)]
        by_cases hcont : dictContains clients (clientIdOf inv) = true
        · rw [if_pos hcont]; exact hg
        · rw [if_neg hcont]; exact dictGet_append_left hg
      refine ⟨g, hget, rfl, rfl, rfl, ?_, fun _ => rfl⟩
      intro info hinfo hc
      exact absurd hc hcid

/-- C8: flattening is deterministic — identical input groups give identical
header, rows and CSV text — and data rows are emitted in client-group
insertion order: the i-th row is the flattening of the i-th dict entry. -/
theorem c8_deterministic_order (g g' : ClientsDict) (h : g = g') :
    flattenGroups g = flattenGroups g' ∧
    csvText (flattenGroups g) = csvText (flattenGroups g') ∧
    (flattenGroups g).2.length = g.length ∧
    (∀ i : Nat, (flattenGroups g).2[i]? =
      (g[i]?).map (rowFor (mkHeaders (maxInvoices g)).length)) := by
  subst h
  refine ⟨rfl, rfl, by simp [flattenGroups], fun i => ?_⟩
  simp [flattenGroups]

/-- C9: the single-invoice scenario — client `c1` named `Acme`, due date
`2000-01-01`, id `i1`, amount `100`, with `now = 2025-01-01` — produces one
group keyed `c1` and one data row `c1, Acme, "", "", past_due, i1, 100,
None, None, None, 2000-01-01`. -/
theorem c9_single_invoice_scenario :
    processInvoices
      [{ RawInvoice.empty with
          client := some ⟨some "c1", some "Acme", none, none⟩,
          dueDate := some "2000-01-01", id := some "i1", amount := some 100 }]
      ⟨2025, 1, 1, 0, 0, 0, 0⟩ [] =
      some [("c1",
        ⟨"Acme", "", "",
          [⟨"past_due", some "i1", some 100, none, none, none,
            "2000-01-01"⟩]⟩)] ∧
    getGroupedInvoices
      [{ RawInvoice.empty with
          client := some ⟨some "c1", some "Acme", none, none⟩,
          dueDate := some "2000-01-01", id := some "i1", amount := some 100 }]
      ⟨2025, 1, 1, 0, 0, 0, 0⟩ =
      some (["client_id", "client_name", "client_email", "client_phone",
             "invoice1_status", "invoice1_id", "invoice1_amount",
             "invoice1_description", "invoice1_download_link",
             "invoice1_create_date", "invoice1_due_date"],
            [[Cell.str "c1", Cell.str "Acme", Cell.str "", Cell.str "",
              Cell.str "past_due", Cell.str "i1", Cell.int 100, Cell.null,
              Cell.null, Cell.null, Cell.str "2000-01-01"]]) := by
  exact ⟨by decide, by decide⟩

/-! ### Concrete witnesses -/

/-- Concrete invoice for the C2 witness. -/
def c2Inv : RawInvoice := { RawInvoice.empty with dueDate := some "2000-01-01" }

/-- Concrete reference time for the C2 witness. -/
def c2Now : PyDateTime := ⟨2025, 1, 1, 0, 0, 0, 0⟩

theorem c2_status_boundary_witness :
    ∃ info, classify c2Inv c2Now = ClassifyResult.ok info ∧
      info.status = (if pyLt (mkDate 2000 1 1) c2Now then "past_due" else "to_be_paid") ∧
      (pyLt (mkDate 2000 1 1) c2Now = true → info.status = "past_due") ∧
      (pyLt (mkDate 2000 1 1) c2Now = false → info.status = "to_be_paid") ∧
      (mkDate 2000 1 1 = c2Now → info.status = "to_be_paid") :=
  c2_status_boundary c2Inv c2Now "2000-01-01" 2000 1 1 (by decide) (by decide)

/-- Concrete invoice for the C3 witness: an unparseable due-date string. -/
def c3Inv : RawInvoice := { RawInvoice.empty with dueDate := some "not-a-date" }

/-- Concrete reference time for the C3 witness. -/
def c3Now : PyDateTime := ⟨2025, 1, 1, 0, 0, 0, 0⟩

theorem c3_parse_gate_witness :
    (parseYMD (("not-a-date" : String).take 10) = none →
      classify c3Inv c3Now = ClassifyResult.dropped ∧
      ∀ l1 l2 c, processInvoices (l1 ++ c3Inv :: l2) c3Now c =
        processInvoices (l1 ++ l2) c3Now c) ∧
    (∀ y m d, parseYMD (("not-a-date" : String).take 10) = some (y, m, d) →
      ∃ info, classify c3Inv c3Now = ClassifyResult.ok info ∧
        info.due_date = "not-a-date" ∧
        ∀ clients, ∃ d' g, aggStep c3Now clients c3Inv = some d' ∧
          dictGet d' (clientIdOf c3Inv) = some g ∧
          g.invoices.getLast? = some info ∧ info ∈ g.invoices) :=
  c3_parse_gate c3Inv c3Now "not-a-date" (by decide)

/-- Concrete group set for the C4 witness. -/
def c4Groups : ClientsDict := [("c1", ⟨"A", "", "", []⟩)]

/-- The one data row flattening `c4Groups` emits. -/
def c4Row : List Cell := [Cell.str "c1", Cell.str "A", Cell.str "", Cell.str ""]

theorem c4_row_shape_witness :
    c4Row.length = 4 + 7 * maxInvoices c4Groups ∧
    ∃ e, e ∈ c4Groups ∧
      c4Row = [Cell.str e.1, Cell.str e.2.client_name, Cell.str e.2.client_email,
               Cell.str e.2.client_phone] ++ (e.2.invoices.map invoiceCells).flatten ++
              List.replicate ((4 + 7 * maxInvoices c4Groups) -
                (4 + 7 * e.2.invoices.length)) (Cell.str "") :=
  c4_row_shape c4Groups c4Row (by decide)

/-- Concrete invoice for the C6 witness: no client sub-object at all. -/
def c6Inv : RawInvoice := { RawInvoice.empty with dueDate := some "2030-01-01" }

theorem c6_unknown_group_witness :
    clientIdOf c6Inv = "unknown" ∧
    (∀ now info clients, classify c6Inv now = ClassifyResult.ok info →
      ∃ d g, aggStep now clients c6Inv = some d ∧ dictGet d "unknown" = some g ∧
        g.invoices.getLast? = some info ∧ info ∈ g.invoices) ∧
    (∀ invs now d, processInvoices invs now [] = some d →
      (d.map Prod.fst).Nodup) :=
  c6_unknown_group c6Inv (Or.inl rfl)

/-- The stored group of client `c1` before the C7 witness step. -/
def c7G : ClientGroup := ⟨"Old Name", "old@x", "1", []⟩

/-- Concrete dict for the C7 witness. -/
def c7Clients : ClientsDict := [("c1", c7G)]

/-- A later invoice for client `c1` carrying different client metadata. -/
def c7Inv : RawInvoice :=
  { RawInvoice.empty with
      client := some ⟨some "c1", some "New Name", some ["new@x"], some "2"⟩,
      dueDate := some "2030-01-01" }

/-- Concrete reference time for the C7 witness. -/
def c7Now : PyDateTime := ⟨2025, 1, 1, 0, 0, 0, 0⟩

/-- The dict after processing `c7Inv`: metadata unchanged, invoice appended. -/
def c7Out : ClientsDict :=
  [("c1", ⟨"Old Name", "old@x", "1",
    [⟨"to_be_paid", none, none, none, none, none, "2030-01-01"⟩]⟩)]

theorem c7_metadata_frozen_witness :
    ∃ g', dictGet c7Out "c1" = some g' ∧
      g'.client_name = c7G.client_name ∧
      g'.client_email = c7G.client_email ∧
      g'.client_phone = c7G.client_phone ∧
      (∀ info, classify c7Inv c7Now = ClassifyResult.ok info →
        clientIdOf c7Inv = "c1" → g'.invoices = c7G.invoices ++ [info]) ∧
      (clientIdOf c7Inv ≠ "c1" → g'.invoices = c7G.invoices) :=
  c7_metadata_frozen c7Now c7Clients c7Inv "c1" c7G c7Out (by decide) (by decide)

/-- Concrete group set for the C8 witness. -/
def c8Groups : ClientsDict :=
  [("a", ⟨"A", "", "", []⟩), ("b", ⟨"B", "", "", []⟩)]

theorem c8_deterministic_order_witness :
    flattenGroups c8Groups = flattenGroups c8Groups ∧
    csvText (flattenGroups c8Groups) = csvText (flattenGroups c8Groups) ∧
    (flattenGroups c8Groups).2.length = c8Groups.length ∧
    (∀ i : Nat, (flattenGroups c8Groups).2[i]? =
      (c8Groups[i]?).map (rowFor (mkHeaders (maxInvoices c8Groups)).length)) :=
  c8_deterministic_order c8Groups c8Groups rfl

/-- Concrete invoice for the C10 witness: empty-string top-level `dueDate`,
one item whose `dueDate` is also the empty string. -/
def c10Inv : RawInvoice :=
  { RawInvoice.empty with dueDate := some "", items := some [⟨some ""⟩] }

/-- Concrete reference time for the C10 witness. -/
def c10Now : PyDateTime := ⟨2025, 1, 1, 0, 0, 0, 0⟩

theorem c10_falsy_fallthrough_witness :
    resolveDueDate c10Inv = Except.ok (some "") ∧
    (((some "" : Option String) = none ∨ (some "" : Option String) = some "") →
      classify c10Inv c10Now = ClassifyResult.dropped) :=
  c10_falsy_fallthrough c10Inv c10Now ⟨some ""⟩ [] rfl rfl
